import Mathlib

/-!
Verification development for the Fitness Smarty live-coaching pipeline
(the `LiveCoach` React component and its utility functions).

The definitions below are a shallow embedding of the JavaScript/TypeScript
source.  JavaScript numbers that only ever hold integers are modelled as
`Nat`/`Int`; audio samples (floats whose operations here — multiplication by
a power of two, truncation, division by a power of two — are exact in IEEE
doubles) are modelled as `ℚ`; a JS binary string (a sequence of code units)
is modelled as `List Nat`; a JS object used as a map is modelled as an
association list, updated in place like the spread operator does.
-/

namespace LiveCoachModel

/-- The status enum accepted by the `updateAnatomyHighlight` tool
(source: `HighlightData.status` union type). -/
inductive Status where
  | optimal
  | warning
  | critical
deriving DecidableEq, Repr

/-- `interface HighlightData` from the source: status, feedback text and the
`Date.now()` timestamp of the last update. -/
structure HighlightData where
  status : Status
  feedback : String
  lastUpdated : Int
deriving DecidableEq, Repr

/-- The `highlights` React state: a JS object keyed by body-part name,
modelled as an association list whose keys are unique. -/
abbrev Highlights := List (String × HighlightData)

/-- Key set of the highlights object. -/
def keys (hs : Highlights) : List String := hs.map Prod.fst

/-- `setHighlights(prev => ({...prev, [args.part]: {...}}))` — JS object
spread update: if the key exists its value is replaced in place, otherwise
the new key is appended. -/
def upsert : Highlights → String → HighlightData → Highlights
  | [], p, d => [(p, d)]
  | (q, e) :: rest, p, d =>
      if q = p then (p, d) :: rest else (q, e) :: upsert rest p d

/-- The auto-expire sweep body (source lines 172–188): every entry with
`now - lastUpdated > 7000` is deleted; all others are retained. -/
def sweep (now : Int) (hs : Highlights) : Highlights :=
  hs.filter (fun pd => decide (now - pd.2.lastUpdated ≤ 7000))

/-! ### Base64 wire codec

The source's `encode`/`decode` utilities build a binary string from a byte
array (`String.fromCharCode`), pass it through the platform's `btoa`/`atob`,
and read code units back (`charCodeAt`).  Since a JS binary string is just a
sequence of byte-sized code units, the byte-list ↔ char-list composition of
those functions is exactly standard (RFC 4648) base64, which `b64encode` /
`b64decode` implement; `btoa`/`atob` are platform built-ins, modelled here
from their standard behaviour. -/

/-- The base64 alphabet, in index order. -/
def b64Table : List Char :=
  ['A','B','C','D','E','F','G','H','I','J','K','L','M','N','O','P',
   'Q','R','S','T','U','V','W','X','Y','Z',
   'a','b','c','d','e','f','g','h','i','j','k','l','m','n','o','p',
   'q','r','s','t','u','v','w','x','y','z',
   '0','1','2','3','4','5','6','7','8','9','+','/']

/-- Character for a 6-bit group. -/
def sextetChar (n : Nat) : Char := b64Table.getD n '='

/-- Index of a base64 character in the alphabet (64 if absent). -/
def charSextet (c : Char) : Nat := b64Table.indexOf c

/-- Base64-encode a byte list (the effect of `btoa` on a binary string). -/
def b64encode : List Nat → List Char
  | [] => []
  | [a] =>
      [sextetChar (a / 4), sextetChar (a % 4 * 16), '=', '=']
  | [a, b] =>
      [sextetChar (a / 4), sextetChar (a % 4 * 16 + b / 16),
       sextetChar (b % 16 * 4), '=']
  | a :: b :: c :: rest =>
      sextetChar (a / 4) :: sextetChar (a % 4 * 16 + b / 16) ::
      sextetChar (b % 16 * 4 + c / 64) :: sextetChar (c % 64) ::
      b64encode rest

/-- Base64-decode a char list back to bytes (the effect of `atob`). -/
def b64decode : List Char → List Nat
  | c1 :: c2 :: c3 :: c4 :: rest =>
      if c3 = '=' then
        [charSextet c1 * 4 + charSextet c2 / 16]
      else if c4 = '=' then
        [charSextet c1 * 4 + charSextet c2 / 16,
         charSextet c2 % 16 * 16 + charSextet c3 / 4]
      else
        (charSextet c1 * 4 + charSextet c2 / 16) ::
        (charSextet c2 % 16 * 16 + charSextet c3 / 4) ::
        (charSextet c3 % 4 * 64 + charSextet c4) ::
        b64decode rest
  | _ => []

/-- Source `encode(bytes)`: build the binary string byte by byte and `btoa`
it.  On byte lists the binary-string detour is the identity, so this is
`b64encode`. -/
def encode (bytes : List Nat) : List Char := b64encode bytes

/-- Source `decode(base64)`: `atob`, then read each code unit back into a
byte array with `charCodeAt`. -/
def decode (s : List Char) : List Nat := b64decode s

/-! ### 16-bit PCM audio codec (`createBlob` / `decodeAudioData`) -/

/-- JS `ToIntegerOrInfinity` on a finite number: truncation toward zero. -/
def jsTrunc (q : ℚ) : Int := if 0 ≤ q then ⌊q⌋ else ⌈q⌉

/-- JS `ToInt16` (the conversion applied when storing into an `Int16Array`):
reduce modulo 2^16 and reinterpret as a signed 16-bit value. -/
def toInt16 (n : Int) : Int :=
  let m := n % 65536
  if 32768 ≤ m then m - 65536 else m

/-- One step of the `createBlob` loop: `int16[i] = data[i] * 32768` (the
`Int16Array` store truncates, then wraps to 16 bits). -/
def encodeSample (x : ℚ) : Int := toInt16 (jsTrunc (x * 32768))

/-- One step of the `decodeAudioData` loop:
`channelData[i] = dataInt16[i * numChannels + channel] / 32768.0`. -/
def decodeSample (v : Int) : ℚ := (v : ℚ) / 32768

/-- Little-endian byte pair of a signed 16-bit value, as exposed by
`new Uint8Array(int16.buffer)`. -/
def int16ToBytes (v : Int) : List Nat :=
  let u := (v % 65536).toNat
  [u % 256, u / 256]

/-- `new Int16Array(data.buffer)`: reinterpret consecutive little-endian
byte pairs as signed 16-bit values. -/
def bytesToInt16s : List Nat → List Int
  | b0 :: b1 :: rest =>
      (let raw : Int := b0 + 256 * b1
       if 32768 ≤ raw then raw - 65536 else raw) :: bytesToInt16s rest
  | _ => []

/-- Source `createBlob(data)`: scale each float sample by 32768 into an
`Int16Array`, view its buffer as bytes, and base64-encode them.  This is the
`data` field of the returned media blob (`mimeType` is the constant
`"audio/pcm;rate=16000"`). -/
def createBlob (data : List ℚ) : List Char :=
  encode ((data.map encodeSample).flatMap int16ToBytes)

/-- Source `decodeAudioData(data, ctx, sampleRate, numChannels)`, with the
platform behaviour of the built-ins it calls made explicit:
* `new Int16Array(data.buffer)` throws a `RangeError` when the byte length
  is odd;
* `frameCount = dataInt16.length / numChannels` is JS float division; the
  Web IDL `unsigned long` conversion in `ctx.createBuffer` truncates it, and
  `createBuffer` throws `NotSupportedError` when the resulting length (or
  the channel count) is zero;
* the copy loop runs `i` up to the fractional `frameCount`, but stores past
  the end of a channel's data are ignored, so exactly
  `⌊dataInt16.length / numChannels⌋` frames survive per channel.
The sample rate is only buffer metadata and does not affect the samples. -/
def decodeAudioData (bytes : List Nat) (numChannels : Nat) :
    Except String (List (List ℚ)) :=
  if bytes.length % 2 ≠ 0 then
    .error "RangeError"
  else
    let dataInt16 := bytesToInt16s bytes
    let frameCount := dataInt16.length / numChannels
    if numChannels = 0 ∨ frameCount = 0 then
      .error "NotSupportedError"
    else
      .ok ((List.range numChannels).map (fun channel =>
        (List.range frameCount).map (fun i =>
          decodeSample (dataInt16.getD (i * numChannels + channel) 0))))

/-- The encode→decode round trip the orchestrator performs on model audio:
`decodeAudioData(decode(blob.data), ctx, rate, 1)` applied to the output of
`createBlob`. -/
def roundTrip (data : List ℚ) : Except String (List (List ℚ)) :=
  decodeAudioData (decode (createBlob data)) 1

/-! ### Playback scheduling (`onmessage` audio branch, interruption) -/

/-- The playback-related refs of the component: `nextStartTimeRef` and the
`audioSourcesRef` set of in-flight buffer sources (identified here by ids). -/
structure PlaybackState where
  nextStartTime : ℚ
  audioSources : List Nat
deriving DecidableEq, Repr

/-- Scheduled start of the next clip:
`Math.max(nextStartTimeRef.current, outputAudioContext.currentTime)`. -/
def scheduledStart (st : PlaybackState) (clock : ℚ) : ℚ :=
  max st.nextStartTime clock

/-- The synthesized-audio branch of `onmessage` (source lines 284–292):
schedule the clip at `scheduledStart`, advance the cursor by its duration,
and register the source node. -/
def handleAudio (st : PlaybackState) (srcId : Nat) (clock dur : ℚ) :
    PlaybackState :=
  { nextStartTime := scheduledStart st clock + dur,
    audioSources := srcId :: st.audioSources }

/-- The interruption branch of `onmessage` (source lines 328–332):
stop every in-flight source, clear the set, reset the cursor to 0. -/
def handleInterrupted (_st : PlaybackState) : PlaybackState :=
  { nextStartTime := 0, audioSources := [] }

/-- Start times assigned to a sequence of audio messages, each tagged with
the playback-clock value at its arrival and its decoded duration; returns
`(start, duration)` pairs.  This is the fold of the `onmessage` audio branch
over the received messages. -/
def schedule (cursor : ℚ) : List (ℚ × ℚ) → List (ℚ × ℚ)
  | [] => []
  | (clock, dur) :: rest =>
      (max cursor clock, dur) :: schedule (max cursor clock + dur) rest

/-! ### Tool-call handling (`onmessage` toolCall branch) -/

/-- A `functionCalls` entry of a `toolCall` message. -/
structure FunctionCall where
  id : String
  name : String
  part : String
  status : Status
  feedback : String
deriving DecidableEq, Repr

/-- Arguments passed to the `logBiomechanicalFault` persistence call. -/
structure PersistCall where
  part : String
  status : Status
  feedback : String
deriving DecidableEq, Repr

/-- A `sendToolResponse` acknowledgment: the echoed call id and name, and
the fixed `response.result` string. -/
structure Ack where
  id : String
  name : String
  result : String
deriving DecidableEq, Repr

/-- Result of handling one function call: the new highlights object, the
persistence calls issued, the acknowledgments sent, and whether the
`syncing` flag was raised. -/
structure ToolCallResult where
  highlights : Highlights
  persisted : List PersistCall
  acks : List Ack
  syncing : Bool
deriving DecidableEq, Repr

/-- One iteration of the `for (const fc of message.toolCall.functionCalls)`
loop (source lines 296–325).  `persistSucceeds` is the eventual outcome of
the `logBiomechanicalFault` promise; the source consumes it only in a
`.finally` that schedules clearing the transient `syncing` flag, so it is
never read by the store, persistence or acknowledgment logic. -/
def handleFunctionCall (persistSucceeds : Bool) (now : Int)
    (hs : Highlights) (fc : FunctionCall) : ToolCallResult :=
  if fc.name = "updateAnatomyHighlight" then
    let hs' := upsert hs fc.part
      { status := fc.status, feedback := fc.feedback, lastUpdated := now }
    let persisted := if fc.status ≠ Status.optimal then
        [{ part := fc.part, status := fc.status, feedback := fc.feedback }]
      else []
    let _ := persistSucceeds
    { highlights := hs',
      persisted := persisted,
      acks := [{ id := fc.id, name := fc.name,
                 result := "HUD LAYER UPDATED & PERSISTED" }],
      syncing := decide (fc.status ≠ Status.optimal) }
  else
    { highlights := hs, persisted := [], acks := [], syncing := false }

/-! ### Orchestrator lifecycle (`stopSession`, `onerror`, `onclose`) -/

/-- The component state touched by the session lifecycle paths. -/
structure CoachState where
  isActive : Bool
  loading : Bool
  transcription : String
  frameTimerOn : Bool
  scriptProcessorConnected : Bool
  inputCtxOpen : Bool
  outputCtxOpen : Bool
  sessionOpen : Bool
  playback : PlaybackState
  highlights : Highlights
deriving DecidableEq, Repr

/-- Source `stopSession` (lines 369–384): clears the active/loading flags,
sets the terminated status text, cancels the frame producer, disconnects the
audio producer, closes both audio contexts and the streaming session, stops
and clears all in-flight playback sources, and clears the HUD store.
(`nextStartTimeRef` is not reset here.) -/
def stopSession (s : CoachState) : CoachState :=
  { isActive := false,
    loading := false,
    transcription := "Uplink terminated.",
    frameTimerOn := false,
    scriptProcessorConnected := false,
    inputCtxOpen := false,
    outputCtxOpen := false,
    sessionOpen := false,
    playback := { nextStartTime := s.playback.nextStartTime,
                  audioSources := [] },
    highlights := [] }

/-- Source `onerror` callback (lines 334–337): logs the error and sets the
status text — nothing else. -/
def onError (s : CoachState) : CoachState :=
  { s with transcription := "LINK FAILURE. RE-ESTABLISHING..." }

/-- Source `onclose` callback (line 338): runs `stopSession`. -/
def onClose (s : CoachState) : CoachState := stopSession s

/-! ### Sweep-timer lifetime (the auto-expire `useEffect`) -/

/-- Events that can affect the sweep interval and the session flag. -/
inductive UiEvent where
  | mount
  | unmount
  | startSession
  | stopSession
deriving DecidableEq, Repr

/-- Whether the auto-expire interval is installed, and whether a session is
active. -/
structure UiState where
  sweepTimerOn : Bool
  isActive : Bool
deriving DecidableEq, Repr

/-- Effect of each lifecycle event on the sweep interval.  The auto-expire
`useEffect` (source lines 172–188) has an empty dependency array, so its
`setInterval` runs on component mount and its `clearInterval` cleanup runs
on component unmount; `startSession`/`stopSession` set `isActive` but never
touch this interval (`stopSession` clears only `frameIntervalRef`). -/
def stepUi (s : UiState) : UiEvent → UiState
  | .mount => { s with sweepTimerOn := true }
  | .unmount => { s with sweepTimerOn := false }
  | .startSession => { s with isActive := true }
  | .stopSession => { s with isActive := false }

/-- The initial state of a freshly created (not yet mounted) component. -/
def initialUiState : UiState := { sweepTimerOn := false, isActive := false }

/-! ### Helper lemmas -/

lemma charSextet_sextetChar : ∀ x < 64, charSextet (sextetChar x) = x := by
  decide

lemma sextetChar_ne_pad : ∀ x < 64, sextetChar x ≠ '=' := by
  decide

/-- Decoding inverts encoding on byte lists. -/
lemma b64_roundtrip (bs : List Nat) (h : ∀ x ∈ bs, x < 256) :
    b64decode (b64encode bs) = bs := by
  induction bs using b64encode.induct with
  | case1 => rfl
  | case2 a =>
      have ha : a < 256 := h a (by simp)
      simp [b64encode, b64decode,
            charSextet_sextetChar _ (show a / 4 < 64 by omega),
            charSextet_sextetChar _ (show a % 4 * 16 < 64 by omega)]
      omega
  | case3 a b =>
      have ha : a < 256 := h a (by simp)
      have hb : b < 256 := h b (by simp)
      simp [b64encode, b64decode,
            sextetChar_ne_pad _ (show b % 16 * 4 < 64 by omega),
            charSextet_sextetChar _ (show a / 4 < 64 by omega),
            charSextet_sextetChar _ (show a % 4 * 16 + b / 16 < 64 by omega),
            charSextet_sextetChar _ (show b % 16 * 4 < 64 by omega)]
      omega
  | case4 a b c rest ih =>
      have ha : a < 256 := h a (by simp)
      have hb : b < 256 := h b (by simp)
      have hc : c < 256 := h c (by simp)
      have hrest := ih (fun x hx => h x (by simp [hx]))
      simp [b64encode, b64decode,
            sextetChar_ne_pad _ (show b % 16 * 4 + c / 64 < 64 by omega),
            sextetChar_ne_pad _ (show c % 64 < 64 by omega),
            charSextet_sextetChar _ (show a / 4 < 64 by omega),
            charSextet_sextetChar _ (show a % 4 * 16 + b / 16 < 64 by omega),
            charSextet_sextetChar _ (show b % 16 * 4 + c / 64 < 64 by omega),
            charSextet_sextetChar _ (show c % 64 < 64 by omega),
            hrest]
      omega

/-- A 16-bit value already in signed range is fixed by `ToInt16`. -/
lemma toInt16_eq_self (n : Int) (h1 : -32768 ≤ n) (h2 : n ≤ 32767) :
    toInt16 n = n := by
  simp only [toInt16]
  omega

/-- The bytes of a 16-bit value are bytes. -/
lemma int16ToBytes_lt (v : Int) : ∀ x ∈ int16ToBytes v, x < 256 := by
  intro x hx
  have h : (v % 65536).toNat < 65536 := by omega
  simp only [int16ToBytes, List.mem_cons, List.not_mem_nil, or_false] at hx
  rcases hx with h1 | h1 <;> omega

/-- Serializing 16-bit values to bytes doubles the length. -/
lemma flatMap_int16ToBytes_length (vs : List Int) :
    (vs.flatMap int16ToBytes).length = 2 * vs.length := by
  induction vs with
  | nil => rfl
  | cons v rest ih => simp [int16ToBytes, ih]; omega

/-- Reading byte pairs back as signed 16-bit values inverts serialization
for values in signed 16-bit range. -/
lemma bytesToInt16s_flatMap (vs : List Int)
    (h : ∀ v ∈ vs, -32768 ≤ v ∧ v ≤ 32767) :
    bytesToInt16s (vs.flatMap int16ToBytes) = vs := by
  induction vs with
  | nil => rfl
  | cons v rest ih =>
      obtain ⟨h1, h2⟩ := h v (by simp)
      have hrest := ih (fun x hx => h x (by simp [hx]))
      simp only [List.flatMap_cons, int16ToBytes, List.cons_append,
        List.nil_append, bytesToInt16s, hrest]
      congr 1
      split <;> omega

/-- `bytesToInt16s` halves the length (rounding down). -/
lemma bytesToInt16s_length (bs : List Nat) :
    (bytesToInt16s bs).length = bs.length / 2 := by
  induction bs using bytesToInt16s.induct with
  | case1 b0 b1 rest ih => simp [bytesToInt16s, ih]; omega
  | case2 bs h => cases bs with
      | nil => rfl
      | cons b rest => cases rest with
          | nil => simp [bytesToInt16s]
          | cons b1 rest1 => exact absurd rfl (h b b1 rest1)

/-- Truncation toward zero moves a rational by less than 1. -/
lemma jsTrunc_sub_lt (q : ℚ) : |q - (jsTrunc q : ℚ)| < 1 := by
  rw [abs_sub_lt_iff]
  simp only [jsTrunc]
  split
  · exact ⟨by linarith [Int.sub_one_lt_floor q], by linarith [Int.floor_le q]⟩
  · exact ⟨by linarith [Int.le_ceil q], by linarith [Int.ceil_lt_add_one q]⟩

/-- Truncation keeps `[-32768, 32768)` inside signed 16-bit range. -/
lemma jsTrunc_range (q : ℚ) (h1 : -32768 ≤ q) (h2 : q < 32768) :
    -32768 ≤ jsTrunc q ∧ jsTrunc q ≤ 32767 := by
  simp only [jsTrunc]
  split
  · rename_i h
    have hnn : (0 : Int) ≤ ⌊q⌋ := Int.floor_nonneg.mpr h
    have hlt : ⌊q⌋ < 32768 := Int.floor_lt.mpr (by exact_mod_cast h2)
    omega
  · rename_i h
    push_neg at h
    have hle : (-32768 : ℚ) ≤ (⌈q⌉ : ℚ) := le_trans h1 (Int.le_ceil q)
    have hub : ⌈q⌉ ≤ 0 := Int.ceil_le.mpr (by push_cast; linarith)
    have hlb : (-32768 : Int) ≤ ⌈q⌉ := by exact_mod_cast hle
    omega

/-- For samples in `[-1, 1)`, the `createBlob` store does not wrap: it is
plain truncation, lands in signed 16-bit range, and the decoded value is
within one quantization step of the original. -/
lemma encodeSample_spec (x : ℚ) (h1 : -1 ≤ x) (h2 : x < 1) :
    encodeSample x = jsTrunc (x * 32768) ∧
    -32768 ≤ encodeSample x ∧ encodeSample x ≤ 32767 ∧
    |decodeSample (encodeSample x) - x| < 1 / 32768 := by
  have hq1 : (-32768 : ℚ) ≤ x * 32768 := by linarith
  have hq2 : x * 32768 < 32768 := by linarith
  obtain ⟨hr1, hr2⟩ := jsTrunc_range _ hq1 hq2
  have he : encodeSample x = jsTrunc (x * 32768) := by
    simp only [encodeSample]
    exact toInt16_eq_self _ hr1 hr2
  refine ⟨he, he ▸ hr1, he ▸ hr2, ?_⟩
  rw [he]
  simp only [decodeSample]
  have hd := jsTrunc_sub_lt (x * 32768)
  rw [abs_sub_comm] at hd
  have h32 : (0 : ℚ) < 32768 := by norm_num
  rw [show (jsTrunc (x * 32768) : ℚ) / 32768 - x
        = ((jsTrunc (x * 32768) : ℚ) - x * 32768) / 32768 by ring]
  rw [abs_div, abs_of_pos h32]
  gcongr

/-- Encoding the zero sample gives the zero 16-bit value. -/
lemma encodeSample_zero : encodeSample 0 = 0 := by
  simp [encodeSample, jsTrunc, toInt16]

/-- Decoding the zero 16-bit value gives the zero sample. -/
lemma decodeSample_zero : decodeSample 0 = 0 := by
  simp [decodeSample]

/-- Reading a list back by index is the identity (used for the
`decodeAudioData` copy loop at one channel). -/
lemma map_range_getD {α β : Type} (l : List α) (d : α) (g : α → β) :
    (List.range l.length).map (fun i => g (l.getD i d)) = l.map g := by
  apply List.ext_getElem
  · simp
  · intro i h1 h2
    simp only [List.getElem_map, List.getElem_range]
    rw [List.getD_eq_getElem]

/-- Core audio round-trip: for a nonempty buffer of samples in `[-1, 1)`,
`createBlob` → base64-decode → `decodeAudioData` at one channel succeeds and
returns exactly the per-sample quantization round trip. -/
lemma roundTrip_ok (data : List ℚ) (hne : data ≠ [])
    (hrange : ∀ x ∈ data, -1 ≤ x ∧ x < 1) :
    roundTrip data = .ok [data.map (fun x => decodeSample (encodeSample x))] := by
  have hb : ∀ v ∈ data.map encodeSample, -32768 ≤ v ∧ v ≤ 32767 := by
    intro v hv
    simp only [List.mem_map] at hv
    obtain ⟨x, hx, rfl⟩ := hv
    obtain ⟨-, hb1, hb2, -⟩ := encodeSample_spec x (hrange x hx).1 (hrange x hx).2
    exact ⟨hb1, hb2⟩
  have hlt : ∀ y ∈ (data.map encodeSample).flatMap int16ToBytes, y < 256 := by
    intro y hy
    simp only [List.mem_flatMap] at hy
    obtain ⟨v, hv, hyv⟩ := hy
    exact int16ToBytes_lt v y hyv
  have hlen : ((data.map encodeSample).flatMap int16ToBytes).length
      = 2 * data.length := by
    rw [flatMap_int16ToBytes_length, List.length_map]
  have hnz : data.length ≠ 0 := by
    simpa [List.length_eq_zero] using hne
  simp only [roundTrip, createBlob, encode, decode]
  rw [b64_roundtrip _ hlt]
  simp only [decodeAudioData, bytesToInt16s_flatMap _ hb]
  rw [if_neg (show ¬(((data.map encodeSample).flatMap int16ToBytes).length % 2 ≠ 0) by
    rw [hlen]; omega)]
  rw [if_neg (by simp [hnz])]
  rw [show List.range 1 = [0] from rfl]
  simp only [List.map_cons, List.map_nil, Nat.div_one]
  simp only [List.cons.injEq, and_true, mul_one, add_zero]
  rw [map_range_getD]
  simp [List.map_map, Function.comp]
/-! ### Claim theorems -/

/-- C10: for every byte array, the base64 wire codec is lossless:
`decode(encode(b)) = b`. -/
theorem c10_base64_roundtrip (bytes : List Nat) (h : ∀ x ∈ bytes, x < 256) :
    decode (encode bytes) = bytes :=
  b64_roundtrip bytes h

/-- Witness for C10 at the concrete byte array `[0, 77, 128, 255]`. -/
theorem c10_base64_roundtrip_witness :
    (∀ x ∈ [0, 77, 128, 255], x < 256) ∧
    decode (encode [0, 77, 128, 255]) = [0, 77, 128, 255] :=
  ⟨by decide, c10_base64_roundtrip [0, 77, 128, 255] (by decide)⟩

/-- C2 (amended): for every nonempty sequence of samples in `[-1.0, 1.0)`,
encoding with `createBlob` and decoding with `decodeAudioData` (same rate,
one channel) succeeds, preserves the length, and reproduces every sample
within one quantization step (1/32768); an all-zero buffer round-trips to
all zeros.  (Samples equal to exactly 1.0 are excluded: they wrap to -1.0,
see the counterexample; the empty buffer is excluded: `createBuffer` rejects
a zero frame count.) -/
theorem c2_pcm_roundtrip_amended (data : List ℚ) (hne : data ≠ [])
    (hrange : ∀ x ∈ data, -1 ≤ x ∧ x < 1) :
    roundTrip data = .ok [data.map (fun x => decodeSample (encodeSample x))] ∧
    (data.map (fun x => decodeSample (encodeSample x))).length = data.length ∧
    (∀ x ∈ data, |decodeSample (encodeSample x) - x| < 1 / 32768) ∧
    ((∀ x ∈ data, x = 0) →
      data.map (fun x => decodeSample (encodeSample x))
        = data.map (fun _ => (0 : ℚ))) := by
  refine ⟨roundTrip_ok data hne hrange, by simp, ?_, ?_⟩
  · intro x hx
    exact (encodeSample_spec x (hrange x hx).1 (hrange x hx).2).2.2.2
  · intro hz
    apply List.map_congr_left
    intro x hx
    rw [hz x hx, encodeSample_zero, decodeSample_zero]

/-- Witness for C2 at the concrete nonempty buffer `[0, 1/2, -1/2]`. -/
theorem c2_pcm_roundtrip_witness :
    roundTrip [(0 : ℚ), 1/2, -1/2] = .ok [[(0 : ℚ), 1/2, -1/2]] := by
  have h := (c2_pcm_roundtrip_amended [(0 : ℚ), 1/2, -1/2] (by simp)
    (by intro x hx; simp only [List.mem_cons, List.not_mem_nil, or_false] at hx
        rcases hx with rfl | rfl | rfl <;> norm_num)).1
  rw [h]
  have hc : ⌈(-16384 : ℚ)⌉ = (-16384 : ℤ) := by
    rw [show (-16384 : ℚ) = ((-16384 : ℤ) : ℚ) by norm_num]
    exact Int.ceil_intCast _
  norm_num [encodeSample, jsTrunc, toInt16, decodeSample, hc]

/-- Counterexample for C2 as stated: the buffer `[1.0]` is inside the
claimed range `[-1.0, 1.0]`, but its round trip yields `-1.0`, which is two
full-scale units — not one quantization step — away from the original. -/
theorem c2_pcm_roundtrip_counterexample :
    roundTrip [(1 : ℚ)] = .ok [[-1]] ∧ (1 : ℚ) / 32768 < |(-1 : ℚ) - 1| := by
  constructor
  · have h1 : encodeSample 1 = -32768 := by
      simp [encodeSample, jsTrunc, toInt16]
    have h2 : createBlob [(1 : ℚ)] = ['A', 'I', 'A', '='] := by
      simp [createBlob, h1, int16ToBytes, encode]
      decide
    rw [roundTrip, h2]
    have h3 : decode ['A', 'I', 'A', '='] = [0, 128] := by decide
    rw [h3]
    simp [decodeAudioData, bytesToInt16s, decodeSample, List.range_succ]
  · norm_num

/-- C5 (amended): `decodeAudioData` rejects a buffer exactly when its byte
length is odd (`RangeError` from the `Int16Array` view — independent of the
channel count) or when it contains less than one complete frame
(`NotSupportedError` from `createBuffer`'s zero frame count, also when the
channel count is 0); an even byte length that is not a multiple of
`2 * channelCount` is NOT rejected — the trailing partial frame is silently
dropped. -/
theorem c5_decode_reject_amended (bytes : List Nat) (numChannels : Nat) :
    (∃ e, decodeAudioData bytes numChannels = .error e) ↔
      (bytes.length % 2 ≠ 0 ∨ bytes.length / 2 / numChannels = 0) := by
  simp only [decodeAudioData, bytesToInt16s_length]
  split_ifs with h1 h2
  · simp [h1]
  · rcases h2 with h | h
    · simp [h1, h, Nat.div_zero]
    · simp [h1, h]
  · push_neg at h2
    simp [h1, h2.2]

/-- Counterexample for C5 as stated: a 6-byte buffer at 2 channels has a
byte length that is not a multiple of `2 * 2`, yet `decodeAudioData` does
not reject it — it decodes one frame and drops the trailing half frame. -/
theorem c5_decode_reject_counterexample :
    decodeAudioData [0, 0, 0, 0, 0, 0] 2 = .ok [[0], [0]] ∧
    [0, 0, 0, 0, 0, 0].length % (2 * 2) ≠ 0 := by
  constructor
  · simp [decodeAudioData, bytesToInt16s, decodeSample, List.range_succ]
  · decide

/-- The first clip scheduled from cursor `c` never starts before `c`. -/
lemma schedule_head_ge (c : ℚ) (msgs : List (ℚ × ℚ)) :
    ∀ p ∈ (schedule c msgs).head?, c ≤ p.1 := by
  cases msgs with
  | nil => simp [schedule]
  | cons m rest =>
      obtain ⟨clock, dur⟩ := m
      simp [schedule]

/-- Scheduled clips never overlap: each clip starts no earlier than the end
of the previous one, in receipt order. -/
lemma schedule_chain (c : ℚ) (msgs : List (ℚ × ℚ)) :
    List.Chain' (fun p q => p.1 + p.2 ≤ q.1) (schedule c msgs) := by
  induction msgs generalizing c with
  | nil => simp [schedule]
  | cons m rest ih =>
      obtain ⟨clock, dur⟩ := m
      rw [schedule, List.chain'_cons']
      exact ⟨fun q hq => schedule_head_ge _ _ q hq, ih _⟩

/-- C3: every clip starts at `max(PlaybackCursor, clock)` and advances the
cursor by its duration, so playback is sequential and non-overlapping in
receipt order; three clips of durations 2, 1, 3 arriving with the clock at
`T` (cursor initially 0) are scheduled at `T`, `T+2`, `T+3`. -/
theorem c3_sequential_playback (T : ℚ) (hT : 0 ≤ T) :
    (∀ (c : ℚ) (msgs : List (ℚ × ℚ)),
      List.Chain' (fun p q => p.1 + p.2 ≤ q.1) (schedule c msgs)) ∧
    schedule 0 [(T, 2), (T, 1), (T, 3)] = [(T, 2), (T + 2, 1), (T + 3, 3)] := by
  refine ⟨schedule_chain, ?_⟩
  have e1 : max (0 : ℚ) T = T := max_eq_right hT
  have e2 : max (T + 2) T = T + 2 := max_eq_left (by linarith)
  have e3 : max (T + 2 + 1) T = T + 2 + 1 := max_eq_left (by linarith)
  simp only [schedule, e1, e2, e3]
  ring_nf

/-- Witness for C3 with the clock at `T = 5`. -/
theorem c3_sequential_playback_witness :
    schedule 0 [((5 : ℚ), 2), (5, 1), (5, 3)] = [((5 : ℚ), 2), (7, 1), (8, 3)] := by
  have h := (c3_sequential_playback 5 (by norm_num)).2
  rw [h]
  norm_num

/-- C4: an interruption stops all in-flight sources, clears the pending
set, resets the cursor to 0, and a subsequent clip is scheduled at the
current clock time, not the pre-interruption cursor. -/
theorem c4_interruption_reset (st : PlaybackState) (clock : ℚ)
    (hclock : 0 ≤ clock) :
    (handleInterrupted st).audioSources = [] ∧
    (handleInterrupted st).nextStartTime = 0 ∧
    scheduledStart (handleInterrupted st) clock = clock := by
  refine ⟨rfl, rfl, ?_⟩
  simp [handleInterrupted, scheduledStart, max_eq_right hclock]

/-- Witness for C4: interrupting with cursor 100 and two live sources, then
scheduling at clock 7. -/
theorem c4_interruption_reset_witness :
    (handleInterrupted ⟨100, [1, 2]⟩).audioSources = [] ∧
    (handleInterrupted ⟨100, [1, 2]⟩).nextStartTime = 0 ∧
    scheduledStart (handleInterrupted ⟨100, [1, 2]⟩) 7 = 7 :=
  c4_interruption_reset ⟨100, [1, 2]⟩ 7 (by norm_num)

/-- C6: `sweep now` removes an Annotation exactly when
`now - lastUpdated > 7000` and retains it exactly when
`now - lastUpdated ≤ 7000`. -/
theorem c6_sweep_expiry (now : Int) (hs : Highlights) (part : String)
    (d : HighlightData) :
    (part, d) ∈ sweep now hs ↔ (part, d) ∈ hs ∧ now - d.lastUpdated ≤ 7000 := by
  simp [sweep, List.mem_filter]

/-- C7 (amended): the sweep interval is tied to the component's mount
lifetime, not the session: it is installed on mount, removed on unmount,
and completely unaffected by session start/stop. -/
theorem c7_sweep_timer_amended (s : UiState) :
    (stepUi s .mount).sweepTimerOn = true ∧
    (stepUi s .unmount).sweepTimerOn = false ∧
    (stepUi s .startSession).sweepTimerOn = s.sweepTimerOn ∧
    (stepUi s .stopSession).sweepTimerOn = s.sweepTimerOn :=
  ⟨rfl, rfl, rfl, rfl⟩

/-- Counterexample for C7 as stated: merely mounting the component (no
session started) leaves the sweep interval running while no session is
active. -/
theorem c7_sweep_timer_counterexample :
    (stepUi initialUiState .mount).sweepTimerOn = true ∧
    (stepUi initialUiState .mount).isActive = false :=
  ⟨rfl, rfl⟩

/-- C1 (amended): a transport error only sets the user-visible link-failure
status text and changes nothing else — `stop()` is not run (it runs on the
close callback instead), and no reconnection is attempted. -/
theorem c1_transport_error_amended (s : CoachState) :
    onError s = { s with transcription := "LINK FAILURE. RE-ESTABLISHING..." } ∧
    onClose s = stopSession s :=
  ⟨rfl, rfl⟩

/-- A concrete mid-session state: active, channel open, both producers
running, one clip in flight, one HUD annotation present. -/
def activeSessionExample : CoachState :=
  { isActive := true,
    loading := false,
    transcription := "NEURAL LINK SECURED. MONITORING BIOMECHANICS.",
    frameTimerOn := true,
    scriptProcessorConnected := true,
    inputCtxOpen := true,
    outputCtxOpen := true,
    sessionOpen := true,
    playback := { nextStartTime := 3, audioSources := [1] },
    highlights := [("knees",
      { status := Status.critical,
        feedback := "Knee collapse detected",
        lastUpdated := 1000 })] }

/-- Counterexample for C1 as stated: after a transport error in an active
session, the session is still active, the channel is still open, the frame
producer still runs and the HUD store is not cleared — none of the `stop()`
effects happened, only the failure status was shown. -/
theorem c1_transport_error_counterexample :
    (onError activeSessionExample).isActive = true ∧
    (onError activeSessionExample).sessionOpen = true ∧
    (onError activeSessionExample).frameTimerOn = true ∧
    (onError activeSessionExample).highlights ≠ [] ∧
    (onError activeSessionExample).transcription
      = "LINK FAILURE. RE-ESTABLISHING..." ∧
    (stopSession activeSessionExample).isActive = false ∧
    (stopSession activeSessionExample).highlights = [] := by
  refine ⟨rfl, rfl, rfl, ?_, rfl, rfl, rfl⟩
  simp [onError, activeSessionExample]

/-- Looking up the upserted key returns the upserted value. -/
lemma lookup_upsert_self (hs : Highlights) (p : String) (d : HighlightData) :
    (upsert hs p d).lookup p = some d := by
  induction hs with
  | nil => simp [upsert]
  | cons qe rest ih =>
      obtain ⟨q, e⟩ := qe
      by_cases h : q = p
      · simp [upsert, h]
      · have hb : (p == q) = false := beq_eq_false_iff_ne.mpr (Ne.symm h)
        simp [upsert, h, List.lookup, hb, ih]

/-- Looking up any other key is unaffected by an upsert. -/
lemma lookup_upsert_ne (hs : Highlights) (p r : String) (d : HighlightData)
    (h : r ≠ p) : (upsert hs p d).lookup r = hs.lookup r := by
  have hb : (r == p) = false := beq_eq_false_iff_ne.mpr h
  induction hs with
  | nil => simp [upsert, List.lookup, hb]
  | cons qe rest ih =>
      obtain ⟨q, e⟩ := qe
      by_cases hq : q = p
      · subst hq
        simp [upsert, List.lookup, hb]
      · by_cases hr : r = q
        · subst hr
          simp [upsert, hq, List.lookup]
        · have hb2 : (r == q) = false := beq_eq_false_iff_ne.mpr hr
          simp [upsert, hq, List.lookup, hb2, ih]

/-- An upsert either leaves the key list unchanged or appends the new key. -/
lemma keys_upsert (hs : Highlights) (p : String) (d : HighlightData) :
    keys (upsert hs p d)
      = if p ∈ keys hs then keys hs else keys hs ++ [p] := by
  induction hs with
  | nil => simp [upsert, keys]
  | cons qe rest ih =>
      obtain ⟨q, e⟩ := qe
      by_cases h : q = p
      · simp [upsert, h, keys]
      · simp only [upsert, if_neg h, keys, List.map_cons] at ih ⊢
        rw [ih]
        by_cases hm : p ∈ rest.map Prod.fst
        · simp [hm, Ne.symm h]
        · simp [hm, Ne.symm h]

/-- Upserts preserve uniqueness of the keys. -/
lemma keys_upsert_nodup (hs : Highlights) (p : String) (d : HighlightData)
    (h : (keys hs).Nodup) : (keys (upsert hs p d)).Nodup := by
  rw [keys_upsert]
  split
  · exact h
  · rename_i hm
    simp [List.nodup_append, h, hm]

/-- The store produced by replaying a sequence of tool-call upserts onto the
initially empty `highlights` object. -/
def applyCalls (calls : List (String × HighlightData)) : Highlights :=
  calls.foldl (fun hs c => upsert hs c.1 c.2) []

lemma applyCalls_append (calls : List (String × HighlightData))
    (c : String × HighlightData) :
    applyCalls (calls ++ [c]) = upsert (applyCalls calls) c.1 c.2 := by
  simp [applyCalls, List.foldl_append]

/-- The replayed store always has at most one entry per body part. -/
lemma applyCalls_keys_nodup (calls : List (String × HighlightData)) :
    (keys (applyCalls calls)).Nodup := by
  induction calls using List.reverseRecOn with
  | nil => simp [applyCalls, keys]
  | append_singleton cs c ih =>
      rw [applyCalls_append]
      exact keys_upsert_nodup _ _ _ ih

/-- The replayed store maps each part to the payload of the last call for
that part (none if the part was never named). -/
lemma applyCalls_lookup (calls : List (String × HighlightData)) (p : String) :
    (applyCalls calls).lookup p
      = ((calls.filter (fun c => c.1 == p)).getLast?).map Prod.snd := by
  induction calls using List.reverseRecOn with
  | nil => simp [applyCalls]
  | append_singleton cs c ih =>
      obtain ⟨k, d⟩ := c
      rw [applyCalls_append]
      by_cases h : k = p
      · subst h
        rw [lookup_upsert_self, List.filter_append]
        simp
      · rw [lookup_upsert_ne _ _ _ _ (Ne.symm h), List.filter_append]
        simp [h, ih]

/-- C8: after any sequence of upserts, the store has at most one Annotation
per body-part identifier, and each part's Annotation is exactly the payload
of the most recent upsert for that part. -/
theorem c8_hud_store_map_semantics (calls : List (String × HighlightData))
    (p : String) :
    (keys (applyCalls calls)).Nodup ∧
    (applyCalls calls).lookup p
      = ((calls.filter (fun c => c.1 == p)).getLast?).map Prod.snd :=
  ⟨applyCalls_keys_nodup calls, applyCalls_lookup calls p⟩

/-- C9: a received `updateAnatomyHighlight` tool call issues exactly one
persistence call when the status is not `optimal` and none when it is
`optimal`; it sends exactly one acknowledgment, with the fixed success
response, naming that tool-call id; and the outcome of the persistence
side-effect influences nothing (store, persistence list, acks and syncing
flag are identical whether it succeeds or fails). -/
theorem c9_toolcall_effects (persistSucceeds : Bool) (now : Int)
    (hs : Highlights) (fc : FunctionCall)
    (hname : fc.name = "updateAnatomyHighlight") :
    (handleFunctionCall persistSucceeds now hs fc).persisted
      = (if fc.status ≠ Status.optimal
          then [{ part := fc.part, status := fc.status,
                  feedback := fc.feedback }]
          else []) ∧
    (handleFunctionCall persistSucceeds now hs fc).persisted.length
      = (if fc.status ≠ Status.optimal then 1 else 0) ∧
    (handleFunctionCall persistSucceeds now hs fc).acks
      = [{ id := fc.id, name := fc.name,
           result := "HUD LAYER UPDATED & PERSISTED" }] ∧
    (handleFunctionCall persistSucceeds now hs fc).highlights
      = upsert hs fc.part
          { status := fc.status, feedback := fc.feedback, lastUpdated := now } ∧
    handleFunctionCall persistSucceeds now hs fc
      = handleFunctionCall true now hs fc := by
  refine ⟨?_, ?_, ?_, ?_, rfl⟩ <;>
    simp [handleFunctionCall, hname] <;>
    split_ifs <;>
    simp

/-- Witness for C9: the scenario tool call for part `knees` with status
`critical`. -/
theorem c9_toolcall_effects_witness :
    (handleFunctionCall false 12345 []
      ⟨"call-1", "updateAnatomyHighlight", "knees", Status.critical,
        "Track knees over toes"⟩).persisted
      = [⟨"knees", Status.critical, "Track knees over toes"⟩] ∧
    (handleFunctionCall false 12345 []
      ⟨"call-1", "updateAnatomyHighlight", "knees", Status.critical,
        "Track knees over toes"⟩).acks
      = [⟨"call-1", "updateAnatomyHighlight",
          "HUD LAYER UPDATED & PERSISTED"⟩] := by
  have h := c9_toolcall_effects false 12345 []
    ⟨"call-1", "updateAnatomyHighlight", "knees", Status.critical,
      "Track knees over toes"⟩ rfl
  exact ⟨by simpa using h.1, by simpa using h.2.2.1⟩

end LiveCoachModel
